import Mathlib

/-
Verification development for the fcc-go repository (URL shortener and
exercise tracker backed by a document store).

The Go sources under scrutiny are `shorturldao.go` and `exercisedao.go`.
The document store (MongoDB) is an external collaborator; it is modelled
here as an in-memory list of documents, with the operational semantics
the spec ascribes to the store adapter in section 6 (insert with a unique
index, findOne returning the first match, aggregate yielding a finite
sequence of documents with no cursor error, updateOne touching the first
matching document).  Everything else is translated directly from the Go
source.
-/

set_option autoImplicit false
set_option maxRecDepth 4000

namespace FccGo

/-! ## Go-level string parsing primitives -/

/-- A calendar date as produced by Go's `time.Parse("2006-01-02", s)`:
year, month, day.  Chronological comparison of the resulting midnight-UTC
instants coincides with lexicographic comparison of the triples. -/
structure GoDate where
  y : Nat
  m : Nat
  d : Nat
  deriving DecidableEq

/-- Chronological order on dates (models comparison of BSON datetimes). -/
def dateLe (a b : GoDate) : Bool :=
  decide (a.y < b.y ∨ (a.y = b.y ∧ (a.m < b.m ∨ (a.m = b.m ∧ a.d ≤ b.d))))

/-- Leap-year test, as in Go's `time` package. -/
def isLeapYear (y : Nat) : Bool :=
  y % 4 == 0 && (y % 100 != 0 || y % 400 == 0)

/-- Number of days in a month, as validated by Go's `time.Parse`. -/
def daysInMonth (y m : Nat) : Nat :=
  if m == 2 then (if isLeapYear y then 29 else 28)
  else if m == 4 || m == 6 || m == 9 || m == 11 then 30
  else 31

/-- Numeric value of a decimal digit character. -/
def digitVal (c : Char) : Nat := c.toNat - 48

/-- Go's `time.Parse("2006-01-02", s)`: exactly ten characters, four
digits, a dash, two digits, a dash, two digits, with the month in 1..12
and the day in range for that month and year. -/
def parseGoDate (s : String) : Option GoDate :=
  match s.data with
  | [y1, y2, y3, y4, c1, m1, m2, c2, d1, d2] =>
    if y1.isDigit && y2.isDigit && y3.isDigit && y4.isDigit &&
       (c1 == '-') && m1.isDigit && m2.isDigit &&
       (c2 == '-') && d1.isDigit && d2.isDigit then
      let y := ((digitVal y1 * 10 + digitVal y2) * 10 + digitVal y3) * 10 + digitVal y4
      let m := digitVal m1 * 10 + digitVal m2
      let d := digitVal d1 * 10 + digitVal d2
      if 1 ≤ m && m ≤ 12 && 1 ≤ d && d ≤ daysInMonth y m then
        some ⟨y, m, d⟩
      else none
    else none
  | _ => none

/-- Decimal value of a nonempty all-digit character list, `none` otherwise. -/
def decDigits (l : List Char) : Option Nat :=
  match l with
  | [] => none
  | _ =>
    if l.all Char.isDigit then
      some (l.foldl (fun a c => a * 10 + digitVal c) 0)
    else none

/-- Go's `strconv.Atoi` on a 64-bit platform: optional sign, decimal
digits, and a range check against the 64-bit `int` type (an out-of-range
value makes `Atoi` return an error, hence `none`). -/
def goAtoi (s : String) : Option Int :=
  match s.data with
  | '-' :: rest =>
    (decDigits rest).bind fun n =>
      if (n : Int) ≤ 2 ^ 63 then some (-(n : Int)) else none
  | '+' :: rest =>
    (decDigits rest).bind fun n =>
      if (n : Int) < 2 ^ 63 then some (n : Int) else none
  | l =>
    (decDigits l).bind fun n =>
      if (n : Int) < 2 ^ 63 then some (n : Int) else none

/-- Hexadecimal digit test (Go's `encoding/hex` accepts both cases). -/
def isHexChar (c : Char) : Bool :=
  c.isDigit || ('a' ≤ c && c ≤ 'f') || ('A' ≤ c && c ≤ 'F')

/-- `primitive.IsValidObjectID`: 24 characters, all hexadecimal. -/
def isValidObjectID (s : String) : Bool :=
  s.length == 24 && s.data.all isHexChar

/-- Digit character for base-36 output, as in Go's `strconv.FormatInt`:
`0`-`9` then lowercase `a`-`z`. -/
def base36Digit (n : Nat) : Char :=
  if n < 10 then Char.ofNat (48 + n) else Char.ofNat (87 + n)

/-- Fuel-driven core of the base-36 formatter (the fuel is an upper bound
on the number of digits; `n + 1` always suffices). -/
def formatBase36Core : Nat → Nat → List Char → List Char
  | 0, _, acc => acc
  | fuel + 1, n, acc =>
    if n < 36 then base36Digit n :: acc
    else formatBase36Core fuel (n / 36) (base36Digit (n % 36) :: acc)

/-- Go's `strconv.FormatInt(n, 36)` for a nonnegative count. -/
def formatBase36 (n : Nat) : String :=
  ⟨formatBase36Core (n + 1) n []⟩

/-! ## URL shortener model (`shorturldao.go`) -/

/-- One document of the URL collection (`urlDBRecord`).  The store key is
modelled as a natural number. -/
structure URLRecord where
  oid : Nat
  originalURL : String
  shortURL : String
  timesVisited : Int
  deriving DecidableEq

/-- Outcome of `insertURL`, i.e. the JSON payload it returns: either a
`urlReceipt` with the original and short URLs, or an error message. -/
inductive URLOut where
  | receipt (originalURL shortURL : String)
  | errorPayload (msg : String)
  deriving DecidableEq

/-- The short URL carried by a receipt, if any. -/
def outShortURL : URLOut → Option String
  | .receipt _ s => some s
  | .errorPayload _ => none

/-- Modelled from the spec: the store assigns a fresh opaque key to each
inserted document. -/
def freshOid (s : List URLRecord) : Nat :=
  s.foldl (fun a r => max a r.oid) 0 + 1

/-- `Collection.UpdateOne` with an `$inc` on `times_visited`, addressing
a document by its key: the first matching document is updated. -/
def incVisit : List URLRecord → Nat → List URLRecord
  | [], _ => []
  | r :: rs, k =>
    if r.oid = k then { r with timesVisited := r.timesVisited + 1 } :: rs
    else r :: incVisit rs k

/-- `insertURL` from `shorturldao.go`: count the collection, form the
base-36 short code from the count, and attempt the insert.  Modelled from
the spec: the store enforces a unique index on `original_url` (section 3),
so the insert reports a duplicate-key error exactly when a record with the
same original URL is already present; in that case the existing record is
looked up by `original_url` and its pair returned, with the store left
unchanged. -/
def insertURL (store : List URLRecord) (newURL : String) : URLOut × List URLRecord :=
  let dbSize := store.length
  let shortURL := formatBase36 dbSize
  match store.find? (fun r => r.originalURL = newURL) with
  | some oldDoc => (.receipt oldDoc.originalURL oldDoc.shortURL, store)
  | none =>
    (.receipt newURL shortURL,
     store ++ [{ oid := freshOid store, originalURL := newURL,
                 shortURL := shortURL, timesVisited := 0 }])

/-- `getOriginalURL` from `shorturldao.go`: find the first record whose
`short_url` equals the input exactly; on a miss return the empty string
and leave the store alone; on a hit increment that record's
`times_visited` and return its original URL. -/
def getOriginalURL (store : List URLRecord) (sURL : String) : String × List URLRecord :=
  match store.find? (fun r => r.shortURL = sURL) with
  | none => ("", store)
  | some foundDoc => (foundDoc.originalURL, incVisit store foundDoc.oid)

/-! ## Exercise tracker model (`exercisedao.go`) -/

/-- One exercise log entry (`ExerciseRecord` in the Go source). -/
structure ExerciseRecord where
  description : String
  duration : Int
  date : GoDate
  deriving DecidableEq

/-- One document of the exercise collection.  The `_id` is modelled as
its canonical (lowercase) hexadecimal string; `log = none` models a
document without a `log` field, which the `$exists` match and `$push`
treat differently from an empty array. -/
structure ExerciseDoc where
  id : String
  username : String
  log : Option (List ExerciseRecord)
  deriving DecidableEq

/-- A document flowing through the aggregation pipeline after the
`$addFields` stage annotated it with the pre-filter log length. -/
structure PipeDoc where
  pid : String
  username : String
  count : Nat
  log : List ExerciseRecord
  deriving DecidableEq

/-- One row produced by the `$unwind` stage: the document with its log
replaced by a single entry. -/
structure PipeRow where
  pid : String
  username : String
  count : Nat
  entry : ExerciseRecord
  deriving DecidableEq

/-- The JSON payload returned by `getExerciseLogsFromUser`.  A decoded
document is marshalled from the Go struct `ExerciseUserRecord`, which has
only the fields `_id`, `username` and `log` — the pipeline's `count`
annotation has no corresponding struct field and is dropped by
`Cursor.Decode`.  `nilBytes` models the nil byte slice the function
returns when the cursor yields no document and reports no error. -/
inductive QueryOut where
  | doc (id username : String) (log : List ExerciseRecord)
  | errorPayload (msg : String)
  | nilBytes
  deriving DecidableEq

/-- The JSON payload returned by `addExerciseToUser`: the
`ExerciseAddedReceipt` struct or an error message. -/
inductive AddOut where
  | receipt (id username description : String) (duration : Int) (date : GoDate)
  | errorPayload (msg : String)
  deriving DecidableEq

/-- The `$match` stage built in `getExerciseLogsFromUser`: the document
with the given `_id` whose `log` field exists. -/
def matchStage (store : List ExerciseDoc) (uid : String) : List ExerciseDoc :=
  store.filter (fun d => decide (d.id = uid) && d.log.isSome)

/-- The `$addFields` stage: annotate each document with `count`, the
`$size` of its log. -/
def addFieldsStage (docs : List ExerciseDoc) : List PipeDoc :=
  docs.map (fun d => ⟨d.id, d.username, (d.log.getD []).length, d.log.getD []⟩)

/-- The `$unwind` stage: one row per log entry, in log order. -/
def unwindStage (docs : List PipeDoc) : List PipeRow :=
  docs.flatMap (fun d => d.log.map (fun e => ⟨d.pid, d.username, d.count, e⟩))

/-- Row comparison used by the `$sort` stage (`log.date` ascending). -/
def rowLE (a b : PipeRow) : Bool :=
  dateLe a.entry.date b.entry.date

/-- Insert a row into a date-sorted list of rows, before the first row it
does not exceed (so the overall sort is stable). -/
def orderedInsertRow (r : PipeRow) : List PipeRow → List PipeRow
  | [] => [r]
  | x :: xs => if rowLE r x then r :: x :: xs else x :: orderedInsertRow r xs

/-- The `$sort` stage on `log.date` ascending.  Modelled from the spec:
the sort is stable, so rows with equal dates keep their relative (log)
order (section 4.3). -/
def sortStage : List PipeRow → List PipeRow
  | [] => []
  | x :: xs => orderedInsertRow x (sortStage xs)

/-- The date-range `$match` stage appended after the sort, exactly as the
source builds it from the two validity flags: both bounds, only the lower
bound, only the upper bound, or no stage at all. -/
def dateMatchStage (fromParsed toParsed : Option GoDate) (rows : List PipeRow) : List PipeRow :=
  match fromParsed, toParsed with
  | some f, some t => rows.filter (fun r => dateLe f r.entry.date && dateLe r.entry.date t)
  | some f, none => rows.filter (fun r => dateLe f r.entry.date)
  | none, some t => rows.filter (fun r => dateLe r.entry.date t)
  | none, none => rows

/-- Fold step of the `$group` stage: merge one row into the accumulated
group documents, appending its entry to its document's `log` (`$push`),
or opening a new group carrying the row's `username` and `count`
(`$first`). -/
def insertRow (acc : List PipeDoc) (r : PipeRow) : List PipeDoc :=
  match acc with
  | [] => [⟨r.pid, r.username, r.count, [r.entry]⟩]
  | d :: ds =>
    if d.pid = r.pid then ⟨d.pid, d.username, d.count, d.log ++ [r.entry]⟩ :: ds
    else d :: insertRow ds r

/-- The `regroupStage` of the source: `$group` by `_id`, taking `$first`
of `username` and `count` and `$push`-ing the surviving entries back into
a `log` array.  Zero input rows produce zero groups. -/
def regroupStage (rows : List PipeRow) : List PipeDoc :=
  rows.foldl insertRow []

/-- The optional-date parameter handling of `getExerciseLogsFromUser`:
parse only a nonempty string; a parse failure leaves the parameter
unsupplied. -/
def optionalDate (s : String) : Option GoDate :=
  if s.length > 0 then parseGoDate s else none

/-- The optional-limit parameter handling: parse only a nonempty string;
a parse failure leaves the parameter unsupplied. -/
def optionalLimit (s : String) : Option Int :=
  if s.length > 0 then goAtoi s else none

/-- The pipeline construction and execution of `getExerciseLogsFromUser`
after parameter validation.  If at least one optional parameter parsed,
the log is unwound, sorted, date-filtered, capped by `$limit` and
regrouped; otherwise the match + count pipeline runs alone.  The cursor
logic of the source then decodes the first resulting document into
`ExerciseUserRecord` (dropping `count`); with no resulting document the
cursor reports no error (the store's aggregate yields a plain finite
sequence, spec section 6), so the `FindOne` fallback guarded by
`cursor.Err() != nil` never runs and the nil byte slice is returned. -/
def getExerciseLogsCore (store : List ExerciseDoc) (uid : String)
    (fromParsed toParsed : Option GoDate) (limParsed : Option Int) : QueryOut :=
  let counted := addFieldsStage (matchStage store uid)
  let outDocs :=
    if fromParsed.isSome || toParsed.isSome || limParsed.isSome then
      let rows := dateMatchStage fromParsed toParsed (sortStage (unwindStage counted))
      let rows :=
        match limParsed with
        | some v => rows.take v.toNat
        | none => rows
      regroupStage rows
    else counted
  match outDocs with
  | d :: _ => .doc d.pid d.username d.log
  | [] => .nilBytes

/-- `getExerciseLogsFromUser` from `exercisedao.go`: validate the id,
independently validate the three optional parameters, then build and run
the aggregation pipeline. -/
def getExerciseLogsFromUser (store : List ExerciseDoc)
    (userID fromDate toDate limit : String) : QueryOut :=
  if !isValidObjectID userID then .errorPayload "invalid id"
  else
    getExerciseLogsCore store userID
      (optionalDate fromDate) (optionalDate toDate) (optionalLimit limit)

/-- The `$push` of `FindOneAndUpdate`: append the entry to the log of the
first document with the given id, creating the log array if the document
has none. -/
def pushLog : List ExerciseDoc → String → ExerciseRecord → List ExerciseDoc
  | [], _, _ => []
  | d :: ds, uid, r =>
    if d.id = uid then { d with log := some ((d.log.getD []) ++ [r]) } :: ds
    else d :: pushLog ds uid r

/-- `addExerciseToUser` from `exercisedao.go`: validate the id, parse the
duration, parse the date (defaulting to the current date `now` when the
string is empty), then push the new entry onto the addressed user's log
and return a receipt built from the user's id and username and the new
entry's fields.  Each validation failure returns its error payload with
the store untouched. -/
def addExerciseToUser (store : List ExerciseDoc)
    (userID desc duration date : String) (now : GoDate) : AddOut × List ExerciseDoc :=
  if !isValidObjectID userID then (.errorPayload "invalid id", store)
  else
    match goAtoi duration with
    | none => (.errorPayload "invalid duration", store)
    | some durationValue =>
      let dateObject? := if date.length > 0 then parseGoDate date else some now
      match dateObject? with
      | none => (.errorPayload "invalid date", store)
      | some dateObject =>
        match store.find? (fun d => d.id = userID) with
        | none => (.errorPayload ("unable to add exercise to" ++ userID), store)
        | some doc =>
          (.receipt doc.id doc.username desc durationValue dateObject,
           pushLog store userID ⟨desc, durationValue, dateObject⟩)

/-! ## Spec-side description of the log query (section 4.3, step 3d) -/

/-- Insert an entry into a date-sorted log, before the first entry it
does not exceed (stable insertion). -/
def orderedInsertRec (e : ExerciseRecord) : List ExerciseRecord → List ExerciseRecord
  | [] => [e]
  | x :: xs =>
    if dateLe e.date x.date then e :: x :: xs else x :: orderedInsertRec e xs

/-- Stable sort of a log by entry date ascending, used to state the
spec's filter/sort/cap contract at the level of entries. -/
def sortLog : List ExerciseRecord → List ExerciseRecord
  | [] => []
  | x :: xs => orderedInsertRec x (sortLog xs)

/-! ## Shared fixtures and helper lemmas -/

/-- A well-formed store key (24 hexadecimal characters). -/
def uid0 : String := "aaaaaaaaaaaaaaaaaaaaaaaa"

/-- Fixture entry dated 2023-01-01 (the spec's worked example). -/
def e1 : ExerciseRecord := ⟨"run", 10, ⟨2023, 1, 1⟩⟩

/-- Fixture entry dated 2023-01-15 (the spec's worked example). -/
def e2 : ExerciseRecord := ⟨"swim", 20, ⟨2023, 1, 15⟩⟩

/-- Fixture entry dated 2023-02-01 (the spec's worked example). -/
def e3 : ExerciseRecord := ⟨"lift", 30, ⟨2023, 2, 1⟩⟩

theorem optionalDate_eq_none {s : String} (h : parseGoDate s = none) :
    optionalDate s = none := by
  unfold optionalDate; split <;> simp [h]

theorem optionalLimit_eq_none {s : String} (h : goAtoi s = none) :
    optionalLimit s = none := by
  unfold optionalLimit; split <;> simp [h]

theorem optionalDate_empty : optionalDate "" = none := rfl

theorem optionalLimit_empty : optionalLimit "" = none := rfl

theorem optionalLimit_pos {s : String} {v : Int} (hlen : 0 < s.length)
    (h : goAtoi s = some v) : optionalLimit s = some v := by
  unfold optionalLimit; rw [if_pos hlen, h]

theorem find?_append_none {α : Type} (p : α → Bool) (l₁ l₂ : List α)
    (h : l₁.find? p = none) : (l₁ ++ l₂).find? p = l₂.find? p := by
  induction l₁ with
  | nil => rfl
  | cons a as ih =>
    rw [List.find?_cons] at h
    cases hp : p a with
    | true => simp [hp] at h
    | false =>
      simp only [hp] at h
      simp [List.find?_cons, hp, ih h]

/-! ## Claim theorems -/

/-- Claim C2 (code bug evidence): for an existing user whose log is the
empty array, a query with a valid limit produces zero pipeline rows, the
cursor reports no error, the `FindOne` fallback never runs, and the
function returns the nil byte slice instead of the user's bare record. -/
theorem queryLogs_empty_log_returns_nil :
    getExerciseLogsFromUser [⟨uid0, "bob", some []⟩] uid0 "" "" "1" = .nilBytes := by
  decide

/-- Claim C3 (code bug evidence): for a well-formed id matching no stored
user, the pipeline yields no document and no cursor error, so the
`UserNotFound` fallback guarded by `cursor.Err() != nil` never runs and
the function returns the nil byte slice instead of the error payload. -/
theorem queryLogs_unknown_user_returns_nil :
    getExerciseLogsFromUser [] uid0 "" "" "" = .nilBytes := by
  decide

/-- Claim C4: with a well-formed user id, an optional filter string that
is absent or fails to parse is treated exactly as not supplied — the
query result is the same as with that parameter empty, so no error arises
from a malformed filter and the remaining filters still apply. -/
theorem queryLogs_malformed_filters_ignored :
    ∀ (s : List ExerciseDoc) (uid fr td lim : String),
    isValidObjectID uid = true →
    (parseGoDate fr = none →
      getExerciseLogsFromUser s uid fr td lim = getExerciseLogsFromUser s uid "" td lim) ∧
    (parseGoDate td = none →
      getExerciseLogsFromUser s uid fr td lim = getExerciseLogsFromUser s uid fr "" lim) ∧
    (goAtoi lim = none →
      getExerciseLogsFromUser s uid fr td lim = getExerciseLogsFromUser s uid fr td "") := by
  intro s uid fr td lim hid
  refine ⟨fun h => ?_, fun h => ?_, fun h => ?_⟩ <;>
    simp only [getExerciseLogsFromUser, hid, Bool.not_true, Bool.false_eq_true, if_false]
  · rw [optionalDate_eq_none h, optionalDate_empty]
  · rw [optionalDate_eq_none h, optionalDate_empty]
  · rw [optionalLimit_eq_none h, optionalLimit_empty]

/-- Witness for C4 at concrete malformed filter strings. -/
theorem queryLogs_malformed_filters_ignored_witness :
    getExerciseLogsFromUser [] uid0 "xx" "yy" "zz" = getExerciseLogsFromUser [] uid0 "" "yy" "zz" ∧
    getExerciseLogsFromUser [] uid0 "xx" "yy" "zz" = getExerciseLogsFromUser [] uid0 "xx" "" "zz" ∧
    getExerciseLogsFromUser [] uid0 "xx" "yy" "zz" = getExerciseLogsFromUser [] uid0 "xx" "yy" "" := by
  have h := queryLogs_malformed_filters_ignored [] uid0 "xx" "yy" "zz" (by decide)
  exact ⟨h.1 (by decide), h.2.1 (by decide), h.2.2 (by decide)⟩

/-- Claim C5: a mint call on an original URL not yet in the store inserts
a new record whose short code is the base-36 encoding of the store's
record count at the time of the call and whose visit counter is zero, and
returns that pair. -/
theorem insertURL_fresh_mints_base36_count :
    ∀ (s : List URLRecord) (u : String), (∀ r ∈ s, r.originalURL ≠ u) →
    insertURL s u = (.receipt u (formatBase36 s.length),
      s ++ [⟨freshOid s, u, formatBase36 s.length, 0⟩]) := by
  intro s u h
  unfold insertURL
  rw [List.find?_eq_none.mpr (by simpa using h)]

/-- Witness for C5 on a 36-record store: the new short code is `"10"`,
matching the spec's base-36 example, and `times_visited` starts at 0. -/
theorem insertURL_fresh_mints_base36_count_witness :
    insertURL (List.replicate 36 ⟨7, "x", "y", 0⟩) "z"
      = (.receipt "z" "10", List.replicate 36 ⟨7, "x", "y", 0⟩ ++ [⟨8, "z", "10", 0⟩]) := by
  have h := insertURL_fresh_mints_base36_count (List.replicate 36 ⟨7, "x", "y", 0⟩) "z"
    (by decide)
  exact h.trans (by decide)

/-- Claim C8: resolving a short code that matches no stored record
returns the empty string and leaves the store — in particular every
visit counter — unchanged. -/
theorem resolve_unknown_returns_empty :
    ∀ (s : List URLRecord) (code : String), (∀ r ∈ s, r.shortURL ≠ code) →
    getOriginalURL s code = ("", s) := by
  intro s code h
  unfold getOriginalURL
  rw [List.find?_eq_none.mpr (by simpa using h)]

/-- Witness for C8: an unknown code against a one-record store. -/
theorem resolve_unknown_returns_empty_witness :
    getOriginalURL [⟨1, "a", "0", 3⟩] "zz" = ("", [⟨1, "a", "0", 3⟩]) :=
  resolve_unknown_returns_empty [⟨1, "a", "0", 3⟩] "zz" (by decide)

/-- Claim C9 counterexample: a call whose duration string is not an
integer but whose user id is malformed returns the invalid-id payload,
not the invalid-duration payload the claim promises for every such
call. -/
theorem appendExercise_bad_duration_cex :
    (addExerciseToUser [] "x" "run" "abc" "" ⟨2026, 10, 11⟩).1
        = AddOut.errorPayload "invalid id" ∧
    (addExerciseToUser [] "x" "run" "abc" "" ⟨2026, 10, 11⟩).1
        ≠ AddOut.errorPayload "invalid duration" := by
  decide

/-- Claim C9 as amended: with a well-formed user id, a duration string
that does not parse as an integer makes the call return the
invalid-duration payload with the store left unchanged (no update is
attempted). -/
theorem appendExercise_bad_duration_rejected :
    ∀ (s : List ExerciseDoc) (uid desc dur date : String) (now : GoDate),
    isValidObjectID uid = true → goAtoi dur = none →
    addExerciseToUser s uid desc dur date now = (.errorPayload "invalid duration", s) := by
  intro s uid desc dur date now hid hdur
  simp only [addExerciseToUser, hid, Bool.not_true, Bool.false_eq_true, if_false, hdur]

/-- Witness for the amended C9 at a concrete non-numeric duration. -/
theorem appendExercise_bad_duration_rejected_witness :
    addExerciseToUser [] uid0 "run" "abc" "" ⟨2026, 10, 11⟩
      = (.errorPayload "invalid duration", []) :=
  appendExercise_bad_duration_rejected [] uid0 "run" "abc" "" ⟨2026, 10, 11⟩
    (by decide) (by decide)

/-- Claim C1 (code bug evidence): at the spec's own worked example — log
entries dated 2023-01-01, 2023-01-15, 2023-02-01, queried with
`from=2023-01-10` and `limit=1` — the returned document holds exactly the
2023-01-15 entry, but the payload type carries only `_id`, `username` and
`log`: the pipeline's `count` annotation is discarded when the document is
decoded into `ExerciseUserRecord`, which has no count field, so the
response never contains the `count = 3` the claim requires. -/
theorem queryLogs_spec_example_lacks_count :
    getExerciseLogsFromUser [⟨uid0, "alice", some [e1, e2, e3]⟩] uid0 "2023-01-10" "" "1"
      = .doc uid0 "alice" [e2] := by
  decide

/-- In a list whose short URLs are pairwise distinct, searching for the
short URL of a member finds exactly that member. -/
theorem find?_shortURL_of_nodup :
    ∀ (s : List URLRecord), (s.map (fun r => r.shortURL)).Nodup →
    ∀ r ∈ s, s.find? (fun x => x.shortURL = r.shortURL) = some r := by
  intro s
  induction s with
  | nil => intro _ r hr; cases hr
  | cons a as ih =>
    intro hnd r hr
    rcases List.mem_cons.mp hr with h | h
    · subst h
      simp [List.find?_cons]
    · have hmem : r.shortURL ∈ as.map (fun r => r.shortURL) :=
        List.mem_map.mpr ⟨r, h, rfl⟩
      have hne : ¬(a.shortURL = r.shortURL) := by
        intro he
        exact (List.nodup_cons.mp (by simpa using hnd)).1 (he ▸ hmem)
      rw [List.find?_cons, decide_eq_false hne]
      exact ih (List.nodup_cons.mp (by simpa using hnd)).2 r h

/-- Claim C6: minting an original URL that is already in the store
returns the stored pair of the existing record and inserts nothing, and
re-minting a freshly minted URL reproduces the first call's result — the
same short code, with no second record. -/
theorem insertURL_idempotent_per_url :
    ∀ (s : List URLRecord) (u : String),
    (∀ r, s.find? (fun x => x.originalURL = u) = some r →
      insertURL s u = (.receipt r.originalURL r.shortURL, s)) ∧
    ((∀ r ∈ s, r.originalURL ≠ u) →
      insertURL (insertURL s u).2 u = insertURL s u) := by
  intro s u
  constructor
  · intro r hr
    unfold insertURL
    rw [hr]
  · intro h
    have hnone : s.find? (fun x => decide (x.originalURL = u)) = none :=
      List.find?_eq_none.mpr (by simpa using h)
    have h1 : insertURL s u = (.receipt u (formatBase36 s.length),
        s ++ [⟨freshOid s, u, formatBase36 s.length, 0⟩]) :=
      insertURL_fresh_mints_base36_count s u h
    rw [h1]
    unfold insertURL
    rw [find?_append_none _ _ _ hnone]
    simp [List.find?_cons]

/-- Witness for C6: a duplicate mint against a one-record store, and a
fresh-then-duplicate mint sequence from the empty store. -/
theorem insertURL_idempotent_per_url_witness :
    insertURL [⟨5, "a", "0", 0⟩] "a" = (.receipt "a" "0", [⟨5, "a", "0", 0⟩]) ∧
    insertURL (insertURL [] "b").2 "b" = insertURL [] "b" :=
  ⟨(insertURL_idempotent_per_url [⟨5, "a", "0", 0⟩] "a").1 ⟨5, "a", "0", 0⟩ (by decide),
   (insertURL_idempotent_per_url [] "b").2 (by decide)⟩

/-- Claim C7: in a store whose short codes are pairwise distinct and do
not already contain the code about to be minted, resolving the short code
returned by minting `u` yields `u` back. -/
theorem mint_resolve_roundtrip :
    ∀ (s : List URLRecord) (u sh : String),
    (s.map (fun r => r.shortURL)).Nodup →
    (∀ r ∈ s, r.shortURL ≠ formatBase36 s.length) →
    outShortURL (insertURL s u).1 = some sh →
    (getOriginalURL (insertURL s u).2 sh).1 = u := by
  intro s u sh hnd hfresh hsh
  cases hfind : s.find? (fun r => decide (r.originalURL = u)) with
  | none =>
    have h1 : insertURL s u = (.receipt u (formatBase36 s.length),
        s ++ [⟨freshOid s, u, formatBase36 s.length, 0⟩]) := by
      unfold insertURL; rw [hfind]
    rw [h1] at hsh ⊢
    simp only [outShortURL, Option.some.injEq] at hsh
    subst hsh
    unfold getOriginalURL
    rw [find?_append_none _ _ _
      (List.find?_eq_none.mpr (by simpa using hfresh))]
    simp [List.find?_cons]
  | some r =>
    have h1 : insertURL s u = (.receipt r.originalURL r.shortURL, s) := by
      unfold insertURL; rw [hfind]
    rw [h1] at hsh ⊢
    simp only [outShortURL, Option.some.injEq] at hsh
    subst hsh
    have hmem : r ∈ s := List.mem_of_find?_eq_some hfind
    have horig : r.originalURL = u := by
      have := List.find?_some hfind
      simpa using this
    unfold getOriginalURL
    rw [find?_shortURL_of_nodup s hnd r hmem]
    exact horig

/-- Witness for C7: mint into the empty store and resolve the returned
code `"0"`. -/
theorem mint_resolve_roundtrip_witness :
    (getOriginalURL (insertURL [] "a").2 "0").1 = "a" :=
  mint_resolve_roundtrip [] "a" "0" (by decide) (by decide) (by decide)

/-! ## Pipeline lemmas for a single matched document -/

theorem map_orderedInsertRow (uid un : String) (c : Nat) (e : ExerciseRecord)
    (l : List ExerciseRecord) :
    orderedInsertRow ⟨uid, un, c, e⟩ (l.map (fun x => ⟨uid, un, c, x⟩))
      = (orderedInsertRec e l).map (fun x => ⟨uid, un, c, x⟩) := by
  induction l with
  | nil => rfl
  | cons x xs ih =>
    by_cases h : dateLe e.date x.date
    · simp [orderedInsertRow, orderedInsertRec, rowLE, h]
    · simp [orderedInsertRow, orderedInsertRec, rowLE, h, ih]

theorem map_sortStage (uid un : String) (c : Nat) (l : List ExerciseRecord) :
    sortStage (l.map (fun x => ⟨uid, un, c, x⟩))
      = (sortLog l).map (fun x => ⟨uid, un, c, x⟩) := by
  induction l with
  | nil => rfl
  | cons x xs ih =>
    simp only [List.map_cons, sortStage, sortLog, ih, map_orderedInsertRow]

theorem unwindStage_single (uid un : String) (c : Nat) (l : List ExerciseRecord) :
    unwindStage [⟨uid, un, c, l⟩] = l.map (fun x => ⟨uid, un, c, x⟩) := by
  simp [unwindStage]

theorem foldl_insertRow_same (uid un : String) (c : Nat) :
    ∀ (es cur : List ExerciseRecord),
    List.foldl insertRow [⟨uid, un, c, cur⟩] (es.map (fun x => ⟨uid, un, c, x⟩))
      = [⟨uid, un, c, cur ++ es⟩] := by
  intro es
  induction es with
  | nil => intro cur; simp
  | cons e rest ih =>
    intro cur
    simp only [List.map_cons, List.foldl_cons]
    have hstep : insertRow [⟨uid, un, c, cur⟩] ⟨uid, un, c, e⟩
        = [⟨uid, un, c, cur ++ [e]⟩] := by
      simp [insertRow]
    rw [hstep, ih (cur ++ [e])]
    simp

theorem regroupStage_map_single (uid un : String) (c : Nat) :
    ∀ (es : List ExerciseRecord),
    regroupStage (es.map (fun x => ⟨uid, un, c, x⟩))
      = match es with
        | [] => []
        | e :: rest => [⟨uid, un, c, e :: rest⟩] := by
  intro es
  cases es with
  | nil => rfl
  | cons e rest =>
    simp only [List.map_cons, regroupStage, List.foldl_cons]
    have hstep : insertRow [] ⟨uid, un, c, e⟩ = [⟨uid, un, c, [e]⟩] := rfl
    rw [hstep, foldl_insertRow_same uid un c rest [e]]
    rfl

/-- Claim C10: with a well-formed id addressing a stored user with log
`l`, any integer-parseable limit string is accepted as a valid filter —
including `"0"` and negative values — and is applied as the row cap on
the date-sorted log (a cap of zero or a negative value leaves zero rows,
which regroup into no document at all, hence the nil byte slice); in
particular `limit="0"` never yields the full log. -/
theorem queryLogs_nonpositive_limit_applied :
    ∀ (s : List ExerciseDoc) (uid un : String) (l : List ExerciseRecord)
      (lim : String) (v : Int),
    isValidObjectID uid = true →
    matchStage s uid = [⟨uid, un, some l⟩] →
    0 < lim.length → goAtoi lim = some v →
    (getExerciseLogsFromUser s uid "" "" lim =
      match (sortLog l).take v.toNat with
      | [] => QueryOut.nilBytes
      | e :: rest => QueryOut.doc uid un (e :: rest)) ∧
    (v = 0 → l ≠ [] →
      getExerciseLogsFromUser s uid "" "" lim
        ≠ getExerciseLogsFromUser s uid "" "" "") := by
  intro s uid un l lim v hid hmatch hlen hparse
  have hcounted : addFieldsStage (matchStage s uid) = [⟨uid, un, l.length, l⟩] := by
    rw [hmatch]; rfl
  have hf : getExerciseLogsFromUser s uid "" "" lim
      = getExerciseLogsCore s uid none none (some v) := by
    simp only [getExerciseLogsFromUser, hid, Bool.not_true, Bool.false_eq_true, if_false,
      optionalDate_empty, optionalLimit_pos hlen hparse]
  have hcore : getExerciseLogsCore s uid none none (some v)
      = match (sortLog l).take v.toNat with
        | [] => QueryOut.nilBytes
        | e :: rest => QueryOut.doc uid un (e :: rest) := by
    simp only [getExerciseLogsCore, hcounted, Option.isSome_none, Option.isSome_some,
      Bool.or_true, Bool.false_or, if_true, dateMatchStage,
      unwindStage_single, map_sortStage]
    rw [← List.map_take, regroupStage_map_single]
    cases hes : (sortLog l).take v.toNat with
    | nil => rfl
    | cons e rest => rfl
  have hrhs : getExerciseLogsFromUser s uid "" "" ""
      = QueryOut.doc uid un l := by
    simp only [getExerciseLogsFromUser, hid, Bool.not_true, Bool.false_eq_true, if_false,
      optionalDate_empty, optionalLimit_empty]
    simp only [getExerciseLogsCore, hcounted, Option.isSome_none, Bool.or_self, if_false,
      Bool.false_eq_true]
  refine ⟨hf.trans hcore, fun hv hl => ?_⟩
  rw [hf, hcore, hrhs, hv]
  cases l with
  | nil => exact absurd rfl hl
  | cons x xs => simp

/-- Witness for C10: a one-entry log queried with `limit="0"` returns the
nil byte slice, which differs from the unfiltered query's full record. -/
theorem queryLogs_nonpositive_limit_applied_witness :
    getExerciseLogsFromUser [⟨uid0, "carol", some [e1]⟩] uid0 "" "" "0" = .nilBytes ∧
    getExerciseLogsFromUser [⟨uid0, "carol", some [e1]⟩] uid0 "" "" "0"
      ≠ getExerciseLogsFromUser [⟨uid0, "carol", some [e1]⟩] uid0 "" "" "" := by
  have h := queryLogs_nonpositive_limit_applied [⟨uid0, "carol", some [e1]⟩] uid0 "carol"
    [e1] "0" 0 (by decide) (by decide) (by decide) (by decide)
  exact ⟨h.1.trans (by decide), h.2 rfl (by decide)⟩

end FccGo
